import Mathlib

/- Shallow embedding of the tiered lookup engine of app.py
   (repository CONSULTADF, Consulta Descritivo de Funcao).

   The engine consumes an in-memory table of records (name, CBO code,
   activities), a free-text query and a fuzzy threshold, and resolves the
   query through four ordered tiers: exact match on the normalized key,
   fuzzy match through a pluggable scorer, substring match, keyword match.

   Modelling conventions:
   - the pandas column __fun_lower (app.py line 193) is the function
     funLower below: strip then lowercase of the name field;
   - the pluggable similarity scorer (rapidfuzz / fuzzywuzzy process.extract
     with WRatio) is an opaque parameter of type Scorer; process.extract is
     modelled as: score every choice, stable-sort descending by score, cap
     at the limit, returning (choice, score, index) triples;
   - pandas Series.str.contains(pat) compiles pat as a regular expression
     and applies re.search to every cell; the fragment of Python regex
     syntax relevant to this program is modelled by parseRe / reSearch:
     literal characters, the dot wildcard, balanced parentheses as
     transparent grouping, an unbalanced parenthesis as a compile error,
     and the remaining metacharacters as an unsupported-construct error;
   - Streamlit rendering is dropped; each branch of the script is mapped
     to the structured LookupResult it would display. -/

namespace ConsultaDF

/-- A row of the reference table: the Funcao, CBO and Atividades columns. -/
structure Record where
  name : String
  cbo : String
  activities : String
deriving DecidableEq, Repr

/-- Whitespace characters recognised by the Python str.strip and str.split
defaults, restricted to the ASCII range used by this application. -/
def isPyWs (c : Char) : Bool :=
  c == ' ' || c == '\t' || c == '\n' || c == '\r' || c == '\x0b' || c == '\x0c'

/-- Python str.strip: drop leading and trailing whitespace. -/
def pyStrip (s : String) : String :=
  String.mk (((s.data.dropWhile isPyWs).reverse.dropWhile isPyWs).reverse)

/-- Python str.lower on one character, covering ASCII letters and the
Latin-1 accented letters occurring in the data of this application;
accented letters are lowercased in place, never stripped. -/
def pyCharLower (c : Char) : Char :=
  if 'A' ≤ c ∧ c ≤ 'Z' then Char.ofNat (c.toNat + 32)
  else if 'À' ≤ c ∧ c ≤ 'Þ' ∧ c ≠ '×' then Char.ofNat (c.toNat + 32)
  else c

/-- Python str.lower, character by character. -/
def pyLower (s : String) : String := String.mk (s.data.map pyCharLower)

/-- Normalization of a name or query: strip then lowercase
(app.py line 193 for the column, line 215 for the query). -/
def normalize (s : String) : String := pyLower (pyStrip s)

/-- The derived search key column __fun_lower of app.py line 193. -/
def funLower (r : Record) : String := normalize r.name

/-- One token of the modelled regular-expression fragment. -/
inductive RTok where
  | lit (c : Char)
  | dot
deriving DecidableEq, Repr

/-- Errors of the modelled regular-expression compiler: an unbalanced
parenthesis (re.error in Python) or a metacharacter outside the modelled
fragment. -/
inductive RegexErr where
  | unbalanced
  | unsupported
deriving DecidableEq, Repr

/-- Regex metacharacters outside the modelled fragment. -/
def unsupportedMeta (c : Char) : Bool :=
  c == '*' || c == '+' || c == '?' || c == '[' || c == ']' ||
  c == '|' || c == '^' || c == '$' || c == '\\' || c == '\x7b' || c == '\x7d'

/-- Compile the pattern: literals and dots are collected, balanced
parentheses are transparent grouping, an unbalanced parenthesis is the
compile error Python re raises, other metacharacters are unsupported.
The second argument is the current parenthesis depth. -/
def parseReAux : List Char → Nat → Except RegexErr (List RTok)
  | [], 0 => .ok []
  | [], _ + 1 => .error .unbalanced
  | c :: cs, d =>
    if c == '(' then parseReAux cs (d + 1)
    else if c == ')' then
      match d with
      | 0 => .error .unbalanced
      | d' + 1 => parseReAux cs d'
    else if c == '.' then
      match parseReAux cs d with
      | .ok ts => .ok (.dot :: ts)
      | .error e => .error e
    else if unsupportedMeta c then .error .unsupported
    else
      match parseReAux cs d with
      | .ok ts => .ok (.lit c :: ts)
      | .error e => .error e

/-- Compile a pattern string, as re.compile does inside str.contains. -/
def parseRe (s : String) : Except RegexErr (List RTok) := parseReAux s.data 0

/-- A character that is not special in the modelled regex fragment. -/
def plainChar (c : Char) : Bool :=
  decide (c ≠ '(' ∧ c ≠ ')' ∧ c ≠ '.') && !unsupportedMeta c

/-- A string free of regex metacharacters. -/
def plainStr (s : String) : Bool := s.data.all plainChar

/-- One regex token against one character; the dot matches anything but a
newline, as in Python without DOTALL. -/
def tokMatch : RTok → Char → Bool
  | .lit c, x => c == x
  | .dot, x => !(x == '\n')

/-- Match the whole token list at the head of the character list. -/
def matchHere : List RTok → List Char → Bool
  | [], _ => true
  | _ :: _, [] => false
  | t :: ts, c :: cs => tokMatch t c && matchHere ts cs

/-- re.search over a character list: the pattern matches at some start. -/
def reSearchL (p : List RTok) : List Char → Bool
  | [] => p.isEmpty
  | c :: cs => matchHere p (c :: cs) || reSearchL p cs

/-- re.search over a string, the test str.contains applies per cell. -/
def reSearch (p : List RTok) (s : String) : Bool := reSearchL p s.data

/-- Literal contiguous containment of a character list. -/
def substrB (needle : List Char) : List Char → Bool
  | [] => needle.isEmpty
  | c :: cs => needle.isPrefixOf (c :: cs) || substrB needle cs

/-- The spec-side notion of Tier 3 and Tier 4 containment: the needle
occurs in the haystack as a literal contiguous substring. -/
def containsLit (hay needle : String) : Bool := substrB needle.data hay.data

/-- The pluggable similarity scorer of Tier 2 (rapidfuzz fuzz.WRatio or
the fuzzywuzzy default): an opaque function from a query string and a
candidate string to a score. -/
abbrev Scorer := String → String → Nat

/-- Insert one (choice, score, index) triple into a list sorted by score
descending, after every element of greater or equal score. -/
def insertByScore (x : String × Nat × Nat) :
    List (String × Nat × Nat) → List (String × Nat × Nat)
  | [] => [x]
  | y :: ys => if y.2.1 < x.2.1 then x :: y :: ys else y :: insertByScore x ys

/-- Stable sort by score descending; ties keep the original order. -/
def sortByScoreDesc (l : List (String × Nat × Nat)) : List (String × Nat × Nat) :=
  l.foldl (fun acc x => insertByScore x acc) []

/-- The unified fuzzy entry point of app.py lines 203 to 211, modelling
process.extract: score every choice against the query string it is given,
rank by score descending with ties in table order, cap at the limit, and
return (choice, score, index) triples. The min_score argument of the
Python function is accepted and ignored there, so it does not appear. -/
def fuzzy_search (scorer : Scorer) (query : String) (choices : List String)
    (limit : Nat) : List (String × Nat × Nat) :=
  (sortByScoreDesc (choices.enum.map (fun ic => (ic.2, scorer query ic.2, ic.1)))).take limit

/-- The structured outcome one run of the script displays. -/
inductive LookupResult where
  | Exact (hits : List Record)
  | Fuzzy (hits : List (Record × Nat))
  | Substring (hits : List Record)
  | Keyword (hits : List Record)
  | NoMatch (suggestions : List (Record × Nat))
deriving DecidableEq, Repr

/-- The row rendering of app.py lines 239 and 244: the first row of the
table whose __fun_lower equals the matched key string. -/
def firstWithKey (t : List Record) (k : String) : Option Record :=
  t.find? (fun r => funLower r == k)

/-- Render a list of fuzzy candidates by looking each matched key up in
the table and attaching the score, exactly as lines 237 to 240 (the
suggestion loop) and 243 to 251 (the good-match loop) do. -/
def renderByKey (t : List Record) (ms : List (String × Nat × Nat)) :
    List (Record × Nat) :=
  ms.filterMap (fun m => (firstWithKey t m.1).map (fun r => (r, m.2.1)))

/-- The candidate list of app.py line 232: fuzzy_search applied to the
raw query, the __fun_lower column as choices, and the fixed limit 10. -/
def fuzzyMatches (scorer : Scorer) (t : List Record) (q : String) :
    List (String × Nat × Nat) :=
  fuzzy_search scorer q (t.map funLower) 10

/-- The good partition of app.py line 233: candidates with score at least
min_score. -/
def goodOf (scorer : Scorer) (t : List Record) (q : String) (minScore : Nat) :
    List (String × Nat × Nat) :=
  (fuzzyMatches scorer t q).filter (fun m => minScore ≤ m.2.1)

/-- Tier 2 of app.py lines 229 to 251: if the good set is empty, NoMatch
with the first three raw candidates as suggestions, else the good set as
Fuzzy hits. -/
def fuzzyTier (scorer : Scorer) (t : List Record) (q : String) (minScore : Nat) :
    LookupResult :=
  if (goodOf scorer t q minScore).isEmpty then
    .NoMatch (renderByKey t ((fuzzyMatches scorer t q).take 3))
  else
    .Fuzzy (renderByKey t (goodOf scorer t q minScore))

/-- The exact-match mask of app.py line 215: rows whose __fun_lower equals
the normalized query, in table order. -/
def exactHits (t : List Record) (nq : String) : List Record :=
  t.filter (fun r => funLower r == nq)

/-- The substring mask of app.py line 257: compile the normalized query as
a regex once, then keep the rows whose key it matches, in table order;
a compile failure aborts the whole run as in pandas. -/
def substringHits (t : List Record) (nq : String) : Except RegexErr (List Record) :=
  match parseRe nq with
  | .error e => .error e
  | .ok p => .ok (t.filter (fun r => reSearch p (funLower r)))

/-- Helper of pySplit: accumulate the current word in reverse. -/
def pySplitAux : List Char → List Char → List String
  | [], acc => if acc.isEmpty then [] else [String.mk acc.reverse]
  | c :: cs, acc =>
    if isPyWs c then
      if acc.isEmpty then pySplitAux cs []
      else String.mk acc.reverse :: pySplitAux cs []
    else pySplitAux cs (c :: acc)

/-- Python str.split with no argument: split on whitespace runs,
discarding empty pieces. -/
def pySplit (s : String) : List String := pySplitAux s.data []

/-- The query_words list of app.py line 272: whitespace tokens of the
normalized query whose length exceeds 3. -/
def queryWords (nq : String) : List String :=
  (pySplit nq).filter (fun w => 3 < w.length)

/-- Compile every keyword in order, stopping at the first compile error,
as the sequential str.contains loop of lines 276 to 277 does. -/
def parseAll : List String → Except RegexErr (List (List RTok))
  | [] => .ok []
  | w :: ws =>
    match parseRe w with
    | .error e => .error e
    | .ok p =>
      match parseAll ws with
      | .error e => .error e
      | .ok ps => .ok (p :: ps)

/-- Tier 4 of app.py lines 271 to 295: no surviving token means NoMatch
with no suggestions; otherwise the rows whose key matches any compiled
token, in table order, tagged Keyword, or NoMatch when there are none. -/
def keywordTier (t : List Record) (nq : String) : Except RegexErr LookupResult :=
  if (queryWords nq).isEmpty then .ok (.NoMatch [])
  else
    match parseAll (queryWords nq) with
    | .error e => .error e
    | .ok pats =>
      let hits := t.filter (fun r => pats.any (fun p => reSearch p (funLower r)))
      if hits.isEmpty then .ok (.NoMatch []) else .ok (.Keyword hits)

/-- The tier chain of app.py lines 213 to 295 for a nonempty query: exact
first; then, when a fuzzy library is configured, Tier 2 and nothing else;
otherwise Tier 3 and, when it finds nothing, Tier 4. -/
def lookupRun (cfg : Option Scorer) (t : List Record) (q : String)
    (minScore : Nat) : Except RegexErr LookupResult :=
  if (exactHits t (normalize q)).isEmpty then
    match cfg with
    | some scorer => .ok (fuzzyTier scorer t q minScore)
    | none =>
      match substringHits t (normalize q) with
      | .error e => .error e
      | .ok subs =>
        if subs.isEmpty then keywordTier t (normalize q)
        else .ok (.Substring subs)
  else .ok (.Exact (exactHits t (normalize q)))

/-- The whole guarded block of app.py line 213: the Python truthiness test
on the query skips everything exactly when the query is the empty string;
a whitespace-only query is truthy and runs the tiers. -/
def lookup (cfg : Option Scorer) (t : List Record) (q : String)
    (minScore : Nat) : Option (Except RegexErr LookupResult) :=
  if q == "" then none else some (lookupRun cfg t q minScore)

/-- Sample record mirroring a row of the sample base of app.py. -/
def rEnf : Record :=
  ⟨"Enfermeiro", "2235-10", "Assistência de enfermagem, plantões"⟩

/-- A deliberate duplicate of rEnf under normalization: same key
enfermeiro, different code and activities. -/
def rEnfDup : Record := ⟨"enfermeiro ", "9999-99", "Outra atividade"⟩

/-- Small concrete record used by several concrete evaluations. -/
def rAbc : Record := ⟨"abc", "0001", "x"⟩

/-- Small concrete record used by several concrete evaluations. -/
def rAbcd : Record := ⟨"abcd", "0002", "y"⟩

/-- Small concrete record used by several concrete evaluations. -/
def rXyz : Record := ⟨"xyz", "0003", "z"⟩

/-- A scorer that returns the constant score 7. -/
def c7Scorer : Scorer := fun _ _ => 7

/-- A scorer that distinguishes the raw query from its normalization. -/
def c2Scorer : Scorer := fun qq _ => if qq == "ABCD " then 90 else 10

/-- A scorer that scores the key enfermeiro high and all else low. -/
def dupScorer : Scorer := fun _ c => if c == "enfermeiro" then 90 else 10

/-- A nonempty list has isEmpty false. -/
theorem isEmpty_false_of_ne {α : Type} {l : List α} (h : l ≠ []) :
    l.isEmpty = false := by
  cases l with
  | nil => exact absurd rfl h
  | cons a l => rfl

/-- Membership in an insertion comes from the new element or the old list. -/
theorem mem_insertByScore {x y : String × Nat × Nat}
    {l : List (String × Nat × Nat)} (h : x ∈ insertByScore y l) :
    x = y ∨ x ∈ l := by
  induction l with
  | nil => simpa [insertByScore] using h
  | cons z zs ih =>
    rw [insertByScore] at h
    split at h
    · rcases List.mem_cons.mp h with h1 | h1
      · exact Or.inl h1
      · exact Or.inr h1
    · rcases List.mem_cons.mp h with h1 | h1
      · exact Or.inr (by rw [h1]; exact List.mem_cons_self z zs)
      · rcases ih h1 with h2 | h2
        · exact Or.inl h2
        · exact Or.inr (List.mem_cons_of_mem z h2)

/-- Membership after folding insertions comes from the seed or the input. -/
theorem mem_sortFold {x : String × Nat × Nat} :
    ∀ (l acc : List (String × Nat × Nat)),
      x ∈ l.foldl (fun a b => insertByScore b a) acc → x ∈ acc ∨ x ∈ l := by
  intro l
  induction l with
  | nil => intro acc h; exact Or.inl h
  | cons y ys ih =>
    intro acc h
    rcases ih (insertByScore y acc) h with h1 | h1
    · rcases mem_insertByScore h1 with h2 | h2
      · exact Or.inr (h2 ▸ List.mem_cons_self y ys)
      · exact Or.inl h2
    · exact Or.inr (List.mem_cons_of_mem y h1)

/-- The stable sort permutes membership only. -/
theorem mem_sortByScoreDesc {x : String × Nat × Nat}
    {l : List (String × Nat × Nat)} (h : x ∈ sortByScoreDesc l) : x ∈ l := by
  rcases mem_sortFold l [] h with h1 | h1
  · cases h1
  · exact h1

/-- The second component of an enumFrom member is a member of the list. -/
theorem snd_mem_of_mem_enumFrom {α : Type} {p : Nat × α} :
    ∀ (l : List α) (n : Nat), p ∈ l.enumFrom n → p.2 ∈ l := by
  intro l
  induction l with
  | nil => intro n h; cases h
  | cons a as ih =>
    intro n h
    rcases List.mem_cons.mp h with h1 | h1
    · rw [h1]; exact List.mem_cons_self a as
    · exact List.mem_cons_of_mem a (ih (n + 1) h1)

/-- Every triple returned by fuzzy_search carries the score of its own
choice string against the query string fuzzy_search was given, and its
choice string comes from the choices list. -/
theorem mem_fuzzy_search {m : String × Nat × Nat} {scorer : Scorer}
    {q : String} {choices : List String} {lim : Nat}
    (h : m ∈ fuzzy_search scorer q choices lim) :
    m.2.1 = scorer q m.1 ∧ m.1 ∈ choices := by
  have h1 : m ∈ sortByScoreDesc
      (choices.enum.map (fun ic => (ic.2, scorer q ic.2, ic.1))) :=
    List.take_subset _ _ h
  have h2 := mem_sortByScoreDesc h1
  obtain ⟨ic, hic, hm⟩ := List.mem_map.mp h2
  have hsnd : ic.2 ∈ choices := snd_mem_of_mem_enumFrom choices 0 hic
  subst hm
  exact ⟨rfl, hsnd⟩

/-- A pattern free of metacharacters compiles to its list of literals. -/
theorem parse_plain : ∀ cs : List Char, cs.all plainChar = true →
    parseReAux cs 0 = .ok (cs.map RTok.lit) := by
  intro cs
  induction cs with
  | nil => intro _; rfl
  | cons c cs ih =>
    intro h
    rw [List.all_cons, Bool.and_eq_true] at h
    obtain ⟨hc, hcs⟩ := h
    rw [plainChar, Bool.and_eq_true, decide_eq_true_eq, Bool.not_eq_true'] at hc
    obtain ⟨⟨hc1, hc2, hc3⟩, hc4⟩ := hc
    have hb1 : (c == '(') = false := beq_eq_false_iff_ne.mpr hc1
    have hb2 : (c == ')') = false := beq_eq_false_iff_ne.mpr hc2
    have hb3 : (c == '.') = false := beq_eq_false_iff_ne.mpr hc3
    simp only [parseReAux, hb1, hb2, hb3, hc4, Bool.false_eq_true, if_false]
    rw [ih hcs]
    rfl

/-- Matching a list of literals at the head is the prefix test. -/
theorem matchHere_lits : ∀ (L : List Char) (cs : List Char),
    matchHere (L.map RTok.lit) cs = L.isPrefixOf cs := by
  intro L
  induction L with
  | nil => intro cs; cases cs <;> rfl
  | cons a as ih =>
    intro cs
    cases cs with
    | nil => rfl
    | cons b bs =>
      simp only [List.map_cons, matchHere, tokMatch, List.isPrefixOf, ih]

/-- Searching a list of literals is literal substring containment. -/
theorem reSearch_lits (L : List Char) : ∀ cs : List Char,
    reSearchL (L.map RTok.lit) cs = substrB L cs := by
  intro cs
  induction cs with
  | nil => cases L <;> rfl
  | cons c cs ih =>
    simp only [reSearchL, substrB, matchHere_lits, ih]

/-- For a metacharacter-free normalized query, the substring mask is the
literal containment filter, in table order. -/
theorem substringHits_plain (t : List Record) (nq : String)
    (h : plainStr nq = true) :
    substringHits t nq = .ok (t.filter (fun r => containsLit (funLower r) nq)) := by
  rw [substringHits, parseRe, parse_plain nq.data h]
  show Except.ok (t.filter (fun r => reSearch (nq.data.map RTok.lit) (funLower r))) = _
  congr 1
  apply List.filter_congr
  intro r _
  rw [reSearch, reSearch_lits]
  rfl

/-- Compiling a list of metacharacter-free keywords succeeds and yields
their literal token lists. -/
theorem parseAll_plain : ∀ ws : List String, ws.all plainStr = true →
    parseAll ws = .ok (ws.map (fun w => w.data.map RTok.lit)) := by
  intro ws
  induction ws with
  | nil => intro _; rfl
  | cons w ws ih =>
    intro h
    rw [List.all_cons, Bool.and_eq_true] at h
    obtain ⟨hw, hws⟩ := h
    have hp : parseRe w = .ok (w.data.map RTok.lit) := parse_plain w.data hw
    rw [parseAll, hp, ih hws]
    rfl

/-- Any-match over literal token lists is any literal containment. -/
theorem any_reSearch_lits (key : String) : ∀ ws : List String,
    (ws.map (fun w => w.data.map RTok.lit)).any (fun p => reSearch p key)
      = ws.any (fun w => containsLit key w) := by
  intro ws
  induction ws with
  | nil => rfl
  | cons w ws ih =>
    simp only [List.map_cons, List.any_cons, ih]
    congr 1
    rw [reSearch, reSearch_lits]
    rfl

/-- Filtering with a stronger predicate yields a sublist of filtering with
a weaker one. -/
theorem filter_impl_sublist {α : Type} {p q : α → Bool}
    (h : ∀ a, p a = true → q a = true) :
    ∀ l : List α, List.Sublist (l.filter p) (l.filter q) := by
  intro l
  induction l with
  | nil => simp
  | cons a l ih =>
    cases hp : p a with
    | true =>
      rw [List.filter_cons_of_pos hp, List.filter_cons_of_pos (h a hp)]
      exact List.Sublist.cons₂ a ih
    | false =>
      rw [List.filter_cons_of_neg (by simp [hp])]
      cases hq : q a with
      | true =>
        rw [List.filter_cons_of_pos hq]
        exact List.Sublist.cons a ih
      | false =>
        rw [List.filter_cons_of_neg (by simp [hq])]
        exact ih

/-- C1: for every table whose names are nonempty after trimming and every
query, if some record has normalized name equal to the normalized query,
lookup returns kind Exact with all such records, in table order, with no
scores, whatever the fuzzy configuration and threshold. -/
theorem C1_exact_precedence (cfg : Option Scorer) (t : List Record)
    (q : String) (s : Nat)
    (hwf : ∀ r ∈ t, funLower r ≠ "")
    (hex : ∃ r ∈ t, funLower r = normalize q) :
    lookup cfg t q s = some (.ok (.Exact (exactHits t (normalize q)))) := by
  obtain ⟨r, hr, hkey⟩ := hex
  have hqne : q ≠ "" := by
    intro hq
    apply hwf r hr
    rw [hkey, hq]
    rfl
  have hq2 : (q == "") = false := beq_eq_false_iff_ne.mpr hqne
  have hmem : r ∈ exactHits t (normalize q) := by
    rw [exactHits]
    exact List.mem_filter.mpr ⟨hr, beq_iff_eq.mpr hkey⟩
  have hne : (exactHits t (normalize q)).isEmpty = false :=
    isEmpty_false_of_ne (by intro hE; rw [hE] at hmem; cases hmem)
  simp [lookup, lookupRun, hq2, hne]

/-- C1 witness: a padded upper-case query hits the sample record. -/
theorem C1_exact_precedence_witness :
    lookup (some c7Scorer) [rEnf] " ENFERMEIRO " 80
      = some (.ok (.Exact (exactHits [rEnf] (normalize " ENFERMEIRO ")))) :=
  C1_exact_precedence (some c7Scorer) [rEnf] " ENFERMEIRO " 80
    (by decide) (by decide)

/-- C2 counterexample: a scorer that sees the raw query ABCD with its
trailing space yields score 90 and a Fuzzy hit, although the same scorer
applied to the normalized query and the key yields 10, below the
threshold; so the scores lookup uses are not computed between the
normalized query and the keys. -/
theorem C2_counterexample :
    lookup (some c2Scorer) [rXyz] "ABCD " 80
      = some (.ok (.Fuzzy [(rXyz, 90)])) ∧
    c2Scorer (normalize "ABCD ") (funLower rXyz) = 10 ∧ (10 : Nat) < 80 :=
  ⟨rfl, rfl, by decide⟩

/-- C2 amended: in the fuzzy tier, the string handed to the scorer is the
raw query as typed, not the normalized query; the candidates are the
normalized keys. Every candidate triple carries the score of the raw
query against its own key, and that key comes from the table column. -/
theorem C2_raw_query_scoring (scorer : Scorer) (t : List Record)
    (q : String) (s : Nat)
    (hq : q ≠ "") (hexact : exactHits t (normalize q) = []) :
    lookup (some scorer) t q s = some (.ok (fuzzyTier scorer t q s)) ∧
    ((fuzzyMatches scorer t q).all
      (fun m => m.2.1 == scorer q m.1 && (t.map funLower).contains m.1)) = true := by
  constructor
  · have hq2 : (q == "") = false := beq_eq_false_iff_ne.mpr hq
    have hE : (exactHits t (normalize q)).isEmpty = true := by rw [hexact]; rfl
    simp [lookup, lookupRun, hq2, hE]
  · rw [List.all_eq_true]
    intro m hm
    obtain ⟨h1, h2⟩ := mem_fuzzy_search hm
    rw [Bool.and_eq_true]
    refine ⟨beq_iff_eq.mpr h1, ?_⟩
    rw [List.contains]
    exact List.elem_iff.mpr h2

/-- C2 amended witness at the counterexample inputs. -/
theorem C2_raw_query_scoring_witness :
    lookup (some c2Scorer) [rXyz] "ABCD " 80
      = some (.ok (fuzzyTier c2Scorer [rXyz] "ABCD " 80)) ∧
    ((fuzzyMatches c2Scorer [rXyz] "ABCD ").all
      (fun m => m.2.1 == c2Scorer "ABCD " m.1
        && ([rXyz].map funLower).contains m.1)) = true :=
  C2_raw_query_scoring c2Scorer [rXyz] "ABCD " 80 (by decide) (by decide)

/-- C3: when the fuzzy tier is reached and its good set is empty, lookup
returns NoMatch carrying the first three raw candidates as suggestions:
the suggestion term does not mention the threshold, and no substring or
keyword tier is consulted. -/
theorem C3_fuzzy_nomatch (scorer : Scorer) (t : List Record) (q : String)
    (s : Nat)
    (hq : q ≠ "")
    (hexact : exactHits t (normalize q) = [])
    (hgood : goodOf scorer t q s = []) :
    lookup (some scorer) t q s =
      some (.ok (.NoMatch (renderByKey t ((fuzzyMatches scorer t q).take 3)))) := by
  have hq2 : (q == "") = false := beq_eq_false_iff_ne.mpr hq
  have hE : (exactHits t (normalize q)).isEmpty = true := by rw [hexact]; rfl
  have hG : (goodOf scorer t q s).isEmpty = true := by rw [hgood]; rfl
  simp [lookup, lookupRun, fuzzyTier, hq2, hE, hG]

/-- C3 witness: the constant score 7 is below the threshold 80, so the
sample record is returned as a suggestion inside NoMatch. -/
theorem C3_fuzzy_nomatch_witness :
    lookup (some c7Scorer) [rEnf] "xyz" 80 =
      some (.ok (.NoMatch (renderByKey [rEnf]
        ((fuzzyMatches c7Scorer [rEnf] "xyz").take 3)))) ∧
    renderByKey [rEnf] ((fuzzyMatches c7Scorer [rEnf] "xyz").take 3)
      = [(rEnf, 7)] :=
  ⟨C3_fuzzy_nomatch c7Scorer [rEnf] "xyz" 80 (by decide) (by decide) (by decide),
   by decide⟩

/-- C4: the table holds two distinct records sharing the normalized key
enfermeiro, the fuzzy tier scores that key twice, and both Fuzzy hits
render the first record of the table: the second record, with its own
code 9999-99 and activities, is not retrievable through this tier. The
rendering at app.py lines 239 and 244 looks the row up again by the key
string and takes iloc zero, discarding the index fuzzy_search returned. -/
theorem C4_duplicate_collapse :
    funLower rEnf = funLower rEnfDup ∧ rEnf ≠ rEnfDup ∧
    lookup (some dupScorer) [rEnf, rEnfDup] "enfermeiros" 80 =
      some (.ok (.Fuzzy [(rEnf, 90), (rEnf, 90)])) :=
  ⟨rfl, by decide, rfl⟩

/-- C5 counterexample: the query a.c is not a literal substring of the key
abc, yet the substring tier returns the record, because str.contains
interprets the normalized query as a regular expression whose dot matches
the letter b. -/
theorem C5_counterexample :
    lookup none [rAbc] "a.c" 80 = some (.ok (.Substring [rAbc])) ∧
    containsLit (funLower rAbc) (normalize "a.c") = false :=
  ⟨rfl, rfl⟩

/-- C5 amended: the substring tier applies the normalized query as a
regular expression; for a query free of regex metacharacters this is
literal contiguous containment, and the tier then returns exactly the
records whose normalized key contains the normalized query, in table
order, tagged Substring. -/
theorem C5_literal_when_plain (t : List Record) (q : String) (s : Nat)
    (hq : q ≠ "")
    (hexact : exactHits t (normalize q) = [])
    (hplain : plainStr (normalize q) = true)
    (hhit : t.filter (fun r => containsLit (funLower r) (normalize q)) ≠ []) :
    lookup none t q s =
      some (.ok (.Substring
        (t.filter (fun r => containsLit (funLower r) (normalize q))))) := by
  have hq2 : (q == "") = false := beq_eq_false_iff_ne.mpr hq
  have hE : (exactHits t (normalize q)).isEmpty = true := by rw [hexact]; rfl
  have hS := substringHits_plain t (normalize q) hplain
  have hne : (t.filter (fun r => containsLit (funLower r) (normalize q))).isEmpty
      = false := isEmpty_false_of_ne hhit
  simp [lookup, lookupRun, hq2, hE, hS, hne]

/-- C5 amended witness: the plain query bcd literally occurs in abcd. -/
theorem C5_literal_when_plain_witness :
    lookup none [rAbcd] "bcd" 80 =
      some (.ok (.Substring
        ([rAbcd].filter (fun r => containsLit (funLower r) (normalize "bcd"))))) :=
  C5_literal_when_plain [rAbcd] "bcd" 80 (by decide) (by decide)
    (by decide) (by decide)

/-- C6 counterexample: both surviving tokens zzzz and a.cd fail literal
containment in the key abcd, yet the keyword tier returns the record,
because the token a.cd is applied as a regular expression. -/
theorem C6_counterexample :
    lookup none [rAbcd] "zzzz a.cd" 80 = some (.ok (.Keyword [rAbcd])) ∧
    queryWords (normalize "zzzz a.cd") = ["zzzz", "a.cd"] ∧
    (queryWords (normalize "zzzz a.cd")).any
      (fun w => containsLit (funLower rAbcd) w) = false :=
  ⟨rfl, rfl, rfl⟩

/-- C6 amended: when the keyword tier is reached, the normalized query is
split on whitespace and tokens of length at most 3 are discarded (so they
never contribute); if no token survives the result is NoMatch with no
suggestions; otherwise, provided the surviving tokens are free of regex
metacharacters, the tier returns exactly the records whose normalized key
literally contains at least one surviving token, in table order, tagged
Keyword, and NoMatch with no suggestions when there are none. -/
theorem C6_keyword_tier (t : List Record) (q : String) (s : Nat)
    (hq : q ≠ "")
    (hexact : exactHits t (normalize q) = [])
    (hsub : substringHits t (normalize q) = .ok [])
    (hplain : (queryWords (normalize q)).all plainStr = true) :
    lookup none t q s = some (.ok (
      if (queryWords (normalize q)).isEmpty then .NoMatch []
      else if (t.filter (fun r => (queryWords (normalize q)).any
          (fun w => containsLit (funLower r) w))).isEmpty
        then .NoMatch []
        else .Keyword (t.filter (fun r => (queryWords (normalize q)).any
          (fun w => containsLit (funLower r) w))))) := by
  have hq2 : (q == "") = false := beq_eq_false_iff_ne.mpr hq
  have hE : (exactHits t (normalize q)).isEmpty = true := by rw [hexact]; rfl
  have hfilter : t.filter (fun r => (queryWords (normalize q)).map
        (fun w => w.data.map RTok.lit) |>.any (fun p => reSearch p (funLower r)))
      = t.filter (fun r => (queryWords (normalize q)).any
        (fun w => containsLit (funLower r) w)) := by
    apply List.filter_congr
    intro r _
    exact any_reSearch_lits (funLower r) (queryWords (normalize q))
  have hrun : lookupRun none t q s = keywordTier t (normalize q) := by
    rw [lookupRun, if_pos hE, hsub]
    rfl
  rw [lookup, if_neg (by rw [hq2]; exact Bool.false_ne_true), hrun, keywordTier]
  cases hW : (queryWords (normalize q)).isEmpty with
  | true =>
    simp [hW]
  | false =>
    rw [parseAll_plain (queryWords (normalize q)) hplain]
    cases hH : (List.filter (fun r => (queryWords (normalize q)).any
        fun w => containsLit (funLower r) w) t).isEmpty with
    | true => simp [hW, hfilter, hH]
    | false => simp [hW, hfilter, hH]

/-- C6 amended witness: the token bcd is dropped for being too short even
though it occurs in the key, the token qqqq survives and misses, and the
keyword tier yields NoMatch with no suggestions. -/
theorem C6_keyword_tier_witness :
    containsLit (funLower rAbcd) "bcd" = true ∧
    queryWords (normalize "qqqq bcd") = ["qqqq"] ∧
    lookup none [rAbcd] "qqqq bcd" 80 = some (.ok (
      if (queryWords (normalize "qqqq bcd")).isEmpty then .NoMatch []
      else if ([rAbcd].filter (fun r => (queryWords (normalize "qqqq bcd")).any
          (fun w => containsLit (funLower r) w))).isEmpty
        then .NoMatch []
        else .Keyword ([rAbcd].filter (fun r => (queryWords (normalize "qqqq bcd")).any
          (fun w => containsLit (funLower r) w))))) :=
  ⟨rfl, rfl,
   C6_keyword_tier [rAbcd] "qqqq bcd" 80 (by decide) (by decide) rfl (by decide)⟩

/-- C7 counterexample: the one-space query is whitespace only, yet the
guard of app.py line 213 is Python truthiness, which only the empty
string fails: the tiers do run, the fuzzy scorer is invoked, and a
NoMatch with a suggestion is produced. -/
theorem C7_counterexample :
    pyStrip " " = "" ∧
    lookup (some c7Scorer) [rAbc] " " 80
      = some (.ok (.NoMatch [(rAbc, 7)])) :=
  ⟨rfl, rfl⟩

/-- C7 amended: exactly the empty query short-circuits to a no-op; any
nonempty query, whitespace-only ones included, runs the tiers. -/
theorem C7_empty_gate (cfg : Option Scorer) (t : List Record) (q : String)
    (s : Nat) (hq : q ≠ "") :
    lookup cfg t "" s = none ∧ (lookup cfg t q s).isSome = true := by
  refine ⟨rfl, ?_⟩
  have hq2 : (q == "") = false := beq_eq_false_iff_ne.mpr hq
  simp [lookup, hq2]

/-- C7 amended witness at the one-space query. -/
theorem C7_empty_gate_witness :
    lookup (some c7Scorer) [rAbc] "" 80 = none ∧
    (lookup (some c7Scorer) [rAbc] " " 80).isSome = true :=
  C7_empty_gate (some c7Scorer) [rAbc] " " 80 (by decide)

/-- C8: for a fixed scorer, table and query, raising the threshold shrinks
the good set: with thresholds t1 at most t2 in the slider range, every
good candidate at t2 is good at t1 and the good set at t2 is no longer
than the one at t1. -/
theorem C8_threshold_monotonic (scorer : Scorer) (t : List Record)
    (q : String) (t1 t2 : Nat)
    (h50 : 50 ≤ t1) (h12 : t1 ≤ t2) (h100 : t2 ≤ 100) :
    goodOf scorer t q t2 ⊆ goodOf scorer t q t1 ∧
    (goodOf scorer t q t2).length ≤ (goodOf scorer t q t1).length := by
  have hsub : List.Sublist (goodOf scorer t q t2) (goodOf scorer t q t1) := by
    rw [goodOf, goodOf]
    apply filter_impl_sublist
    intro m hm
    rw [decide_eq_true_eq] at hm ⊢
    exact le_trans h12 hm
  exact ⟨hsub.subset, hsub.length_le⟩

/-- C8 witness at thresholds 60 and 90 over the sample record. -/
theorem C8_threshold_monotonic_witness :
    goodOf c7Scorer [rEnf] "enfermeira" 90 ⊆ goodOf c7Scorer [rEnf] "enfermeira" 60 ∧
    (goodOf c7Scorer [rEnf] "enfermeira" 90).length
      ≤ (goodOf c7Scorer [rEnf] "enfermeira" 60).length :=
  C8_threshold_monotonic c7Scorer [rEnf] "enfermeira" 60 90
    (by decide) (by decide) (by decide)

/-- C9: lookup is a function of its configuration, table, query and
threshold alone; two invocations with identical inputs return identical
structured results. -/
theorem C9_deterministic (cfg cfg' : Option Scorer) (t t' : List Record)
    (q q' : String) (s s' : Nat)
    (h1 : cfg = cfg') (h2 : t = t') (h3 : q = q') (h4 : s = s') :
    lookup cfg t q s = lookup cfg' t' q' s' := by
  subst h1; subst h2; subst h3; subst h4; rfl

/-- C9 witness: two identical invocations over the sample record. -/
theorem C9_deterministic_witness :
    lookup none [rEnf] "enfermeiro" 80 = lookup none [rEnf] "enfermeiro" 80 :=
  C9_deterministic none none [rEnf] [rEnf] "enfermeiro" "enfermeiro" 80 80
    rfl rfl rfl rfl

/-- C10: the substring tier is not total: the query consisting of one
opening parenthesis is compiled as a regular expression by str.contains
and the compilation fails, so the run aborts with an error instead of
yielding a hit list. -/
theorem C10_regex_error :
    lookup none [rEnf] "(" 80 = some (.error RegexErr.unbalanced) := rfl

end ConsultaDF
